import Mathlib

/-!
# Verification of pixl-logger (src/logger.js)

A shallow embedding of the logger class in src/logger.js.  JavaScript strings
are modelled as `List Char` (values, lines, file contents) or `String` (paths,
keys), JavaScript objects holding column values as association lists
`List (String × JVal)` (JS objects have unique keys; all operations preserve
that), and the filesystem as an association list from path to contents.
Asynchronous filesystem calls are modelled by passing the outcome of the
underlying operation (`ok : Bool`) explicitly and, where the completion
callback matters, by a separate completion step.  `os.EOL` is modelled as the
Unix line ending.
-/

namespace PixlLogger

/-- A JavaScript value as it can appear among the logger's column arguments:
a string, a number (integers; the fractional hires epoch is `vhires`, carrying
milliseconds), a boolean, `null`, `undefined`, or a structured object whose
`JSON.stringify` serialization is the carried string. -/
inductive JVal where
  | vstr (s : List Char)
  | vnum (n : Int)
  | vhires (ms : Int)
  | vbool (b : Bool)
  | vnull
  | vundef
  | vobj (json : List Char)
deriving DecidableEq, Repr

/-- JavaScript truthiness of a `JVal` (used by `if (x)` tests in the source). -/
def truthy : JVal → Bool
  | .vstr s => s ≠ []
  | .vnum n => n ≠ 0
  | .vhires ms => ms ≠ 0
  | .vbool b => b
  | .vnull => false
  | .vundef => false
  | .vobj _ => true

/-- Numeric reading of a `JVal` where the source uses it as a number. -/
def asInt : JVal → Int
  | .vnum n => n
  | .vhires ms => ms / 1000
  | .vbool b => if b then 1 else 0
  | _ => 0

/-- Decimal digits of an integer, as characters. -/
def intChars (n : Int) : List Char :=
  (toString n).data

/-- JavaScript `Number.prototype.toString` for the hires epoch `ms / 1000`:
integer part, and a 3-digit fractional part with trailing zeros dropped
(absent when zero).  Column values never depend on its internals. -/
def msToChars (ms : Int) : List Char :=
  let q := Int.fdiv ms 1000
  let r := Int.emod ms 1000
  if r = 0 then intChars q
  else
    let frac := Nat.toDigits 10 r.toNat
    let pad := List.replicate (3 - frac.length) '0' ++ frac
    intChars q ++ '.' :: (pad.reverse.dropWhile (· = '0')).reverse

/-- JavaScript `toString` of a value as used when a column value is rendered
(`logger.js` line 221-222): objects were already replaced by their JSON. -/
def rawToStr : JVal → List Char
  | .vstr s => s
  | .vnum n => intChars n
  | .vhires ms => msToChars ms
  | .vbool b => if b then "true".data else "false".data
  | .vnull => "null".data
  | .vundef => "undefined".data
  | .vobj json => json

/-- The logger's argument objects: JS objects with unique keys, modelled as
association lists keyed by `String`.  Lookup takes the first binding. -/
abbrev Args : Type := List (String × JVal)

/-- Property lookup: a missing key reads as `undefined`. -/
def lookupArg (args : Args) (k : String) : JVal :=
  match args with
  | [] => .vundef
  | (k', v) :: rest => if k' = k then v else lookupArg rest k

/-- The JS `in` operator: key presence, regardless of the stored value. -/
def hasKey (args : Args) (k : String) : Bool :=
  match args with
  | [] => false
  | (k', _) :: rest => k' = k || hasKey rest k

/-- JS property assignment `obj[k] = v`: replaces an existing binding in
place, otherwise appends (JS insertion order). -/
def setKey (args : Args) (k : String) (v : JVal) : Args :=
  match args with
  | [] => [(k, v)]
  | (k', v') :: rest => if k' = k then (k', v) :: rest else (k', v') :: setKey rest k v

/-- JS `delete obj[k]`. -/
def removeKey (args : Args) (k : String) : Args :=
  match args with
  | [] => []
  | (k', v') :: rest => if k' = k then rest else (k', v') :: removeKey rest k

/-- `logger.js` lines 200-202: `for (var key in this.args) if (!(key in args))
args[key] = this.args[key];` — import instance defaults into the per-call
copy without overwriting per-call keys. -/
def mergeDefaults (args : Args) : Args → Args
  | [] => args
  | kv :: rest => mergeDefaults (if hasKey args kv.1 then args else args ++ [kv]) rest

/-! ## Value cleansing (logger.js line 222) -/

/-- First cleansing pass, `replace(/[\r\n]/g, ' ')`. -/
def nlToSpace (c : Char) : Char :=
  if c = '\r' ∨ c = '\n' then ' ' else c

/-- Second cleansing pass, `replace(/\]\[/g, '')`: a single left-to-right
scan removing non-overlapping occurrences of the two-character sequence
close-bracket open-bracket; the scan resumes after each removal and never
rescans text it already passed (JS global-regex replace semantics). -/
def removeBrk : List Char → List Char
  | ']' :: '[' :: rest => removeBrk rest
  | c :: rest => c :: removeBrk rest
  | [] => []

/-- Default column cleansing: newline conversion then bracket-pair removal. -/
def cleanse (s : List Char) : List Char :=
  removeBrk (s.map nlToSpace)

/-- Number of positions where the two-character sequence close-bracket
open-bracket occurs (occurrences cannot overlap: the second character of one
differs from the first of the next, so this is exactly the number of field
boundaries a scanning reader sees in a log line). -/
def countBrk : List Char → Nat
  | [] => 0
  | c :: rest => (if c = ']' ∧ rest.head? = some '[' then 1 else 0) + countBrk rest

/-- A bracket-framed log line has one field per close-open boundary plus one. -/
def numFields (line : List Char) : Nat :=
  countBrk line + 1

/-- `cols.join('][')` from `logger.js` line 227. -/
def joinBrk : List (List Char) → List Char
  | [] => []
  | [c] => c
  | c :: rest => c ++ ']' :: '[' :: joinBrk rest

/-- `bufferLines.join("")`. -/
def joinAll (ls : List (List Char)) : List Char :=
  ls.foldr (· ++ ·) []

/-- `os.EOL`, modelled for the Unix platform. -/
def eol : List Char := ['\n']

/-- The default serialized row, `'[' + cols.join('][') + ']' + os.EOL`. -/
def composeRow (cols : List (List Char)) : List Char :=
  '[' :: joinBrk cols ++ ']' :: eol

/-! ## Filesystem model -/

/-- The filesystem: an association list from path to file contents.  All of
the logger's writes are appends. -/
abbrev FS : Type := List (String × List Char)

/-- Append `data` to the file at `path`, creating it when absent. -/
def fsAppend (fs : FS) (path : String) (data : List Char) : FS :=
  match fs with
  | [] => [(path, data)]
  | (p, c) :: rest => if p = path then (p, c ++ data) :: rest else (p, c) :: fsAppend rest path data

/-- Contents of the file at `path` (a missing file reads as empty). -/
def fsRead (fs : FS) (path : String) : List Char :=
  match fs with
  | [] => []
  | (p, c) :: rest => if p = path then c else fsRead rest path

/-- Whether a file exists at `path`. -/
def hasPath (fs : FS) (path : String) : Bool :=
  match fs with
  | [] => false
  | (p, _) :: rest => p = path || hasPath rest path

/-- Delete the file at `path`. -/
def fsRemove (fs : FS) (path : String) : FS :=
  match fs with
  | [] => []
  | (p, c) :: rest => if p = path then rest else (p, c) :: fsRemove rest path

/-- `fs.rename(src, dst)`: fails (returns `none`) when the source is missing,
otherwise moves the contents, replacing any file at the destination. -/
def fsRename (fs : FS) (src dst : String) : Option FS :=
  if hasPath fs src then
    some (fsAppend (fsRemove (fsRemove fs dst) src) dst (fsRead fs src))
  else none

/-! ## Logger instance state

The mutable fields of one `Logger` instance.  The hook fields (`pather`,
`filter`, `serializer`, `echoer`) are the instance-level strategy slots of
logger.js lines 29-32; `none` means "not installed".  The `echoer` hook is
modelled in its file-path form (the function form only writes to the
console).  `bufferLines` is `none` while the JS field is `undefined`, i.e.
before any `enableBuffer` call — the distinction is load-bearing for the
`clone` analysis.  `flushTimer` records whether the recurring interval timer
exists. -/

/-- Errors a logger call can raise: a JS `TypeError` from touching an
uninitialized buffer, or a filesystem error from a synchronous append. -/
inductive JsErr where
  | typeError
  | fsError
deriving DecidableEq, Repr

structure LoggerState where
  path : String
  columns : List String
  args : Args
  pather : Option (String → Args → String) := none
  filter : Option (JVal → Nat → List Char) := none
  serializer : Option (List (List Char) → Args → Option (List Char)) := none
  echoer : Option String := none
  useBuffer : Bool := false
  bufferMaxLines : Int := 100
  flushInterval : Int := 100
  flushOnShutdown : Bool := true
  approximateTime : Bool := false
  bufferLines : Option (List (List Char)) := none
  flushTimer : Bool := false
  flushInProgress : Bool := false
  lastPath : String := ""
  lastRow : Option (List Char) := none
  lastEpoch : Option Int := none
  lastDateStr : List Char := []

/-- Whether the instance is in synchronous mode (`this.args.sync`). -/
def syncMode (st : LoggerState) : Bool :=
  truthy (lookupArg st.args "sync")

/-! ## Buffer manager (logger.js lines 69-130) -/

/-- Result of a buffer operation: the instance state and filesystem after the
call returns, an error propagated to the caller (if any), and the payload of
an asynchronous append still in flight (its completion callback has not yet
run; see `flushComplete`). -/
structure FlushOut where
  st : LoggerState
  fs : FS
  err : Option JsErr := none
  pending : Option (List Char) := none

/-- `flushBuffer` (logger.js lines 89-111).  `ok` is the outcome of the
underlying filesystem append.  In the asynchronous branch the single
`fs.appendFile` call is issued with the joined payload; its effect on the
filesystem and the completion callback are modelled by `flushComplete`.
When `useBuffer` is true but `bufferLines` is undefined (`none`), reading
`this.bufferLines.length` throws a `TypeError`. -/
def flushBuffer (st : LoggerState) (fs : FS) (ok : Bool) : FlushOut :=
  if ¬st.useBuffer then ⟨st, fs, none, none⟩
  else
    match st.bufferLines with
    | none => ⟨st, fs, some .typeError, none⟩
    | some ls =>
      if ls = [] ∨ st.flushInProgress then ⟨st, fs, none, none⟩
      else
        let payload := joinAll ls
        let st1 := { st with flushInProgress := true, bufferLines := some [] }
        if syncMode st then
          if ok then
            ⟨{ st1 with flushInProgress := false }, fsAppend fs st.lastPath payload, none, none⟩
          else
            ⟨st1, fs, some .fsError, none⟩
        else
          ⟨st1, fs, none, some payload⟩

/-- Completion of the asynchronous append issued by `flushBuffer`: the
operating system performs the single append (succeeding iff `ok`), then the
callback of logger.js lines 106-109 runs; it ignores the error argument and
clears `flushInProgress` unconditionally. -/
def flushComplete (st : LoggerState) (fs : FS) (payload : List Char) (ok : Bool) :
    LoggerState × FS :=
  ({ st with flushInProgress := false },
   if ok then fsAppend fs st.lastPath payload else fs)

/-- `bufferAppendLine` (logger.js lines 83-87): push the line, flush when the
buffer has reached `bufferMaxLines`. -/
def bufferAppendLine (st : LoggerState) (fs : FS) (line : List Char) (ok : Bool) : FlushOut :=
  match st.bufferLines with
  | none => ⟨st, fs, some .typeError, none⟩
  | some ls =>
    let st1 := { st with bufferLines := some (ls ++ [line]) }
    if (ls.length + 1 : Int) ≥ st.bufferMaxLines then flushBuffer st1 fs ok
    else ⟨st1, fs, none, none⟩

/-- `enableBuffer` (logger.js lines 69-81): fresh buffer, recurring flush
timer.  (The process-signal registration has no effect on instance state.) -/
def enableBuffer (st : LoggerState) : LoggerState :=
  { st with useBuffer := true, bufferLines := some [], flushTimer := true }

/-- `shutdown` (logger.js lines 113-130).  Returns an error when the buffer
field is undefined (the JS code would throw reading `.length`). -/
def shutdown (st : LoggerState) (fs : FS) : Except JsErr (LoggerState × FS) :=
  if ¬st.useBuffer then .ok (st, fs)
  else
    let st1 := if st.flushTimer then { st with flushTimer := false } else st
    match st1.bufferLines with
    | none => .error .typeError
    | some ls =>
      if ls ≠ [] then
        .ok ({ st1 with bufferLines := some [], useBuffer := false,
                        args := setKey st1.args "sync" (.vbool true) },
             fsAppend fs st1.lastPath (joinAll ls))
      else
        .ok ({ st1 with useBuffer := false,
                        args := setKey st1.args "sync" (.vbool true) }, fs)

/-! ## Placeholder substitution (external collaborator `Tools.substitute`)

Conventional semantics: each bracket-delimited `[key]` is replaced by the
string form of the record's value for `key`. -/

mutual

/-- Inside a `[key]` placeholder: accumulate key characters (reversed) until
the closing bracket, then emit the looked-up value. -/
def subKey (args : Args) (key : List Char) : List Char → List Char
  | [] => rawToStr (lookupArg args (String.mk key.reverse))
  | ']' :: rest => rawToStr (lookupArg args (String.mk key.reverse)) ++ subMain args rest
  | c :: rest => subKey args (c :: key) rest

/-- Outside a placeholder: copy characters, entering key mode at `[`. -/
def subMain (args : Args) : List Char → List Char
  | [] => []
  | '[' :: rest => subKey args [] rest
  | c :: rest => c :: subMain args rest

end

def substituteL (s : List Char) (args : Args) : List Char :=
  subMain args s

def substitute (s : String) (args : Args) : String :=
  String.mk (substituteL s.data args)

/-! ## Row formatting (logger.js lines 210-228) -/

/-- The column-population loop of logger.js lines 210-224: for each configured
column, look up the merged record's value; `undefined`/`null` render as the
empty string; with no filter hook installed, objects are serialized to JSON
and the string form is cleansed; a filter hook replaces all of that and
receives the raw value and the column index. -/
def populate (columns : List String) (args : Args)
    (filter : Option (JVal → Nat → List Char)) : List (List Char) :=
  columns.enum.map (fun p =>
    let v0 := lookupArg args p.2
    let val := if v0 = .vundef ∨ v0 = .vnull then JVal.vstr [] else v0
    match filter with
    | some f => f val p.1
    | none => cleanse (rawToStr val))

/-- `colorize` (logger.js lines 271-282) in a colorless terminal, where every
`chalk` style is the identity: the bracket-framed row without the EOL. -/
def colorize (cols : List (List Char)) : List Char :=
  '[' :: joinBrk cols ++ [']']

/-! ## print (logger.js lines 164-269) -/

/-- Everything observable about one `print` call: the instance state and
filesystem afterwards, the merged per-call record (the local `args` object),
the cleansed columns, the composed line (`none` when a custom serializer
suppressed the row), a propagated error, a still-inflight buffered flush
payload, and the characters echoed to standard output. -/
structure PrintResult where
  st : LoggerState
  fs : FS
  merged : Args
  cols : List (List Char)
  line : Option (List Char)
  err : Option JsErr := none
  pending : Option (List Char) := none
  stdout : List Char := []

/-- The clock value `now` (milliseconds) of logger.js lines 170-183: a truthy
`args.now` (hires epoch seconds) takes precedence; otherwise the clock read
(`Date.now()` or the approximate-time snapshot), passed in as `nowDefault`. -/
def nowOf (in_args : Args) (nowDefault : Int) : Int :=
  if truthy (lookupArg in_args "now") then asInt (lookupArg in_args "now") * 1000
  else nowDefault

/-- The date-string cache test of logger.js line 190:
`this.lastEpoch && (epoch == this.lastEpoch)`. -/
def cacheHitB (st : LoggerState) (epoch : Int) : Bool :=
  match st.lastEpoch with
  | some e => e != 0 && epoch == e
  | none => false

/-- The local `args` object of `print` after logger.js line 207: the copy of
the caller's object (minus a consumed truthy `now`), with the instance
defaults merged underneath and the automatic `hires_epoch`, `epoch` and
`date` columns assigned on top. -/
def mergedArgsOf (st : LoggerState) (in_args : Args) (nowDefault : Int)
    (formatDate : Int → List Char) : Args :=
  let now := nowOf in_args nowDefault
  let a1 := if truthy (lookupArg in_args "now") then removeKey in_args "now" else in_args
  let epoch := Int.fdiv now 1000
  let dateStr := if cacheHitB st epoch then st.lastDateStr else formatDate epoch
  setKey (setKey (setKey (mergeDefaults a1 st.args) "hires_epoch" (.vhires now))
    "epoch" (.vnum epoch)) "date" (.vstr dateStr)

/-- The append decision of logger.js lines 241-244, with precedence
buffering > synchronous append > asynchronous fire-and-forget append.
`a3` is the merged record (whose `sync` flag is consulted), `path` the
resolved output path, `ok` the outcome of the underlying append. -/
def printAppendStep (st3 : LoggerState) (fs : FS) (a3 : Args) (path : String)
    (line : List Char) (ok : Bool) : FlushOut :=
  if st3.useBuffer then bufferAppendLine st3 fs line ok
  else if truthy (lookupArg a3 "sync") then
    if ok then ⟨st3, fsAppend fs path line, none, none⟩
    else ⟨st3, fs, some .fsError, none⟩
  else ⟨st3, (if ok then fsAppend fs path line else fs), none, none⟩

/-- The echo branch of logger.js lines 247-265, assembling the final
`PrintResult`.  It is skipped when the append threw (the JS exception
aborts `print` before the echo code), and `chalk` colors are the identity
in a colorless terminal.  A string `echoer` is a second append target. -/
def printEchoStep (out : FlushOut) (echoer : Option String) (a3 : Args)
    (cols : List (List Char)) (line : List Char) (ok : Bool) : PrintResult :=
  if out.err.isSome then
    ⟨out.st, out.fs, a3, cols, some line, out.err, out.pending, []⟩
  else if truthy (lookupArg a3 "echo") then
    match echoer with
    | some ep =>
      ⟨out.st, (if ok then fsAppend out.fs ep line else out.fs), a3, cols,
       some line, none, out.pending, []⟩
    | none =>
      if truthy (lookupArg a3 "color") then
        ⟨out.st, out.fs, a3, cols, some line, none, out.pending, colorize cols ++ eol⟩
      else
        ⟨out.st, out.fs, a3, cols, some line, none, out.pending, line⟩
  else ⟨out.st, out.fs, a3, cols, some line, none, out.pending, []⟩

/-- The tail of `print` from logger.js line 228 on: a serializer result of
`false` (`none`) suppresses the row — nothing is written, echoed or recorded
beyond the date-cache update already performed; otherwise the line is
remembered, the output path resolved (hook, else placeholder substitution
when the path contains a bracket) and remembered, and the line appended and
echoed. -/
def printFinish (st : LoggerState) (fs : FS) (st1 : LoggerState) (a3 : Args)
    (cols : List (List Char)) (ok : Bool) : Option (List Char) → PrintResult
  | none => ⟨st1, fs, a3, cols, none, none, none, []⟩
  | some line =>
    let st2 := { st1 with lastRow := some line }
    let path :=
      match st.pather with
      | some p => p st.path a3
      | none => if st.path.data.contains '[' then substitute st.path a3 else st.path
    let st3 := { st2 with lastPath := path }
    printEchoStep (printAppendStep st3 fs a3 path line ok) st.echoer a3 cols line ok

/-- `print` (logger.js lines 164-269).  `in_args` is the caller's argument
object; the source copies it (`Tools.copyHash`) and mutates only the copy,
so here every update builds a new record value and `in_args` itself is
untouched.  `nowDefault` stands for the clock read (`Date.now()` or the
approximate-time snapshot) in milliseconds; an `args.now` override (hires
epoch seconds) takes precedence and is deleted from the copy.  `formatDate`
stands for `Tools.formatDate`; `ok` is the outcome of whichever filesystem
append the call performs. -/
def print (st : LoggerState) (fs : FS) (in_args : Args) (nowDefault : Int)
    (formatDate : Int → List Char) (ok : Bool) : PrintResult :=
  let now := nowOf in_args nowDefault
  let epoch := Int.fdiv now 1000
  let cacheHit := cacheHitB st epoch
  let st1 :=
    if cacheHit then st
    else { st with lastDateStr := formatDate epoch, lastEpoch := some epoch }
  let a3 := mergedArgsOf st in_args nowDefault formatDate
  let cols := populate st.columns a3 st.filter
  let lineO : Option (List Char) :=
    match st.serializer with
    | some f => f cols a3
    | none => some (composeRow cols)
  printFinish st fs st1 a3 cols ok lineO

/-! ## debug / shouldLog (logger.js lines 284-295, 477-480) -/

/-- JS `l <= v` where `v` is the stored `debugLevel` value (non-numeric
values compare false, as with `NaN`). -/
def jsLE (l : Int) : JVal → Bool
  | .vnum n => l ≤ n
  | _ => false

/-- JS `v >= l` for the stored `debugLevel` value. -/
def jsGE : JVal → Int → Bool
  | .vnum n, l => n ≥ l
  | _, _ => false

/-- `get(key)` (logger.js lines 132-135), single-key form. -/
def get (st : LoggerState) (key : String) : JVal :=
  lookupArg st.args key

/-- `debug` (logger.js lines 284-295): builds the record and delegates to
`print` only when `level <= this.args.debugLevel`; otherwise nothing at all
happens (`none`). -/
def debugCall (st : LoggerState) (fs : FS) (level : Int) (msg : JVal) (data : JVal)
    (nowDefault : Int) (formatDate : Int → List Char) (ok : Bool) : Option PrintResult :=
  if jsLE level (lookupArg st.args "debugLevel") then
    some (print st fs
      [("category", .vstr "debug".data), ("code", .vnum level),
       ("msg", msg), ("data", data)] nowDefault formatDate ok)
  else none

/-- `shouldLog` (logger.js lines 477-480): `this.get('debugLevel') >= level`,
a pure query. -/
def shouldLog (st : LoggerState) (level : Int) : Bool :=
  jsGE (get st "debugLevel") level

/-! ## Constructor and clone (logger.js lines 43-67, 150-162) -/

/-- One step of the `internalArgs` extraction loop (logger.js lines 58-63):
when the args copy holds a truthy value for `k`, return it and delete the
key; otherwise leave the args untouched and report no value. -/
def extractField (a : Args) (k : String) : Option JVal × Args :=
  let v := lookupArg a k
  if truthy v then (some v, removeKey a k) else (none, a)

/-- The constructor (logger.js lines 43-67).  `hostname` and `pid` stand for
`os.hostname().toLowerCase()` and `process.pid`, used only when the caller
did not supply truthy values.  Hook functions cannot occur in a `JVal` args
object; of the `internalArgs`, the scalar configuration keys and a string
`echoer` are extracted here — a truthy value moves to the instance field and
is deleted from the args copy, a falsy one is left in the args and the field
keeps its class default.  When the extracted `useBuffer` is truthy,
`enableBuffer` runs. -/
def construct (path : String) (columns : List String) (init_args : Args)
    (hostname : List Char) (pid : Int) : LoggerState :=
  let a := init_args
  let a := if truthy (lookupArg a "debugLevel") then a else setKey a "debugLevel" (.vnum 1)
  let a := if truthy (lookupArg a "hostname") then a else setKey a "hostname" (.vstr hostname)
  let a := if truthy (lookupArg a "pid") then a else setKey a "pid" (.vnum pid)
  let (e, a) := extractField a "echoer"
  let (ub, a) := extractField a "useBuffer"
  let (bml, a) := extractField a "bufferMaxLines"
  let (fi, a) := extractField a "flushInterval"
  let (fos, a) := extractField a "flushOnShutdown"
  let (apx, a) := extractField a "approximateTime"
  let base : LoggerState :=
    { path := path, columns := columns, args := a,
      echoer := e.bind (fun v => match v with | .vstr s => some (String.mk s) | _ => none),
      useBuffer := ub.isSome,
      bufferMaxLines := (bml.map asInt).getD 100,
      flushInterval := (fi.map asInt).getD 100,
      flushOnShutdown := (fos.map truthy).getD true,
      approximateTime := apx.isSome }
  if base.useBuffer then enableBuffer base else base

/-- `clone` without overrides (logger.js lines 150-162): construct a fresh
instance from `this.path`, `this.columns`, `this.args`, then for each
`internalArgs` key with a truthy value on the source instance, copy the
field onto the clone.  Note that this assignment does **not** invoke
`enableBuffer`, so the clone's `bufferLines` and `flushTimer` are whatever
the constructor left. -/
def cloneInst (st : LoggerState) (hostname : List Char) (pid : Int) : LoggerState :=
  let c := construct st.path st.columns st.args hostname pid
  { c with
    pather := if st.pather.isSome then st.pather else c.pather,
    filter := if st.filter.isSome then st.filter else c.filter,
    serializer := if st.serializer.isSome then st.serializer else c.serializer,
    echoer := if st.echoer.isSome then st.echoer else c.echoer,
    useBuffer := if st.useBuffer then st.useBuffer else c.useBuffer,
    bufferMaxLines := if st.bufferMaxLines ≠ 0 then st.bufferMaxLines else c.bufferMaxLines,
    flushInterval := if st.flushInterval ≠ 0 then st.flushInterval else c.flushInterval,
    flushOnShutdown := if st.flushOnShutdown then st.flushOnShutdown else c.flushOnShutdown,
    approximateTime := if st.approximateTime then st.approximateTime else c.approximateTime }

/-! ## rotate (logger.js lines 317-393): completion-notification discipline

The rotate flow is a fixed tree of asynchronous filesystem steps whose
callback wiring decides how many times the caller's completion callback
runs.  `RotateEnv` fixes the outcome of each underlying step; `rotateCalls`
lists the completion-callback invocations the source then performs, in
program order:
  * first rename succeeds → `callback(null)` once (line 390);
  * first rename fails with a non-EXDEV error → `callback(err)` once;
  * EXDEV: local temp rename fails → `callback(err)` once (line 359);
    otherwise the copy stage wires **both** `inp.on('error', callback)` and
    `outp.on('error', callback)` (lines 367-368), so each erroring stream
    invokes the callback; the write stream's `finish` event fires only when
    neither stream errored, and then the final rename reports its error once,
    or the unlink callback reports once (success or the unlink error). -/

inductive RenameRes where
  | ok
  | exdev
  | fail
deriving DecidableEq, Repr

structure RotateEnv where
  rename1 : RenameRes
  srcRenameOk : Bool
  inpErr : Bool
  outpErr : Bool
  rename2Ok : Bool
  unlinkOk : Bool
deriving DecidableEq, Repr

inductive RotateNote where
  | success
  | failure
deriving DecidableEq, Repr

def rotateCalls (env : RotateEnv) : List RotateNote :=
  match env.rename1 with
  | .ok => [.success]
  | .fail => [.failure]
  | .exdev =>
    if ¬env.srcRenameOk then [.failure]
    else
      (if env.inpErr then [RotateNote.failure] else []) ++
      (if env.outpErr then [RotateNote.failure] else []) ++
      (if ¬env.inpErr ∧ ¬env.outpErr then
        if ¬env.rename2Ok then [RotateNote.failure]
        else if env.unlinkOk then [RotateNote.success] else [RotateNote.failure]
      else [])

/-! ## archive (logger.js lines 395-475) -/

/-- `\w` of the regex `\.\w+$`. -/
def isWordChar (c : Char) : Bool :=
  c.isAlphanum || c = '_'

/-- `Path.basename`. -/
def basename (p : String) : List Char :=
  (p.data.reverse.takeWhile (· ≠ '/')).reverse

/-- `replace(/\.\w+$/, '')`: drop one trailing dot-extension when present. -/
def stripExt (s : List Char) : List Char :=
  let r := s.reverse
  let w := r.takeWhile isWordChar
  if w ≠ [] ∧ (r.drop w.length).head? = some '.' then (r.drop (w.length + 1)).reverse
  else s

/-- `Path.basename(src_file).replace(/\.\w+$/, '')` (logger.js line 417). -/
def getBaseNoExt (p : String) : List Char :=
  stripExt (basename p)

/-- The per-file temp name `src_file + '.' + Tools.generateUniqueID(32) + '.tmp'`. -/
def tmpName (src_file uid : String) : String :=
  src_file ++ "." ++ uid ++ ".tmp"

/-- The expanded destination path a file is archived to: the destination
template with placeholders substituted from the instance defaults after the
`filename` key was written (logger.js lines 417-420). -/
def archiveDest (st : LoggerState) (dest_path : String) (src_file : String) : String :=
  substitute dest_path (setKey st.args "filename" (.vstr (getBaseNoExt src_file)))

/-- `dest_file.match(/\.gz$/i)`: a case-insensitive `.gz` suffix. -/
def endsGz (p : String) : Bool :=
  match p.data.reverse with
  | z :: g :: d :: _ => (z == 'z' || z == 'Z') && (g == 'g' || g == 'G') && d == '.'
  | _ => false

/-- One file of the archive loop (logger.js lines 413-468): write the file's
basename-without-extension into the persistent defaults, expand the
destination template, rename the source to a same-directory temp name (a
failure is fatal for the file), create destination directories (modelled as
succeeding; it cannot affect the file map), then stream the temp file into
the destination — gzip-compressed iff the expanded destination ends in
`.gz`, verbatim otherwise — through a write stream opened with append flags,
and finally unlink the temp file.  `gz` stands for the gzip encoder; `uid`
for `Tools.generateUniqueID(32)`. -/
def archiveOneFile (gz : List Char → List Char) (dest_path : String) (uid : String)
    (st : LoggerState) (fs : FS) (src_file : String) :
    LoggerState × FS × Option String :=
  let dest_file := archiveDest st dest_path src_file
  let st := { st with args := setKey st.args "filename" (.vstr (getBaseNoExt src_file)) }
  let src_temp := tmpName src_file uid
  match fsRename fs src_file src_temp with
  | none => (st, fs, some ("Failed to rename: " ++ src_file))
  | some fs1 =>
    let content := fsRead fs1 src_temp
    let payload := if endsGz dest_file then gz content else content
    let fs2 := fsAppend fs1 dest_file payload
    let fs3 := fsRemove fs2 src_temp
    (st, fs3, none)

/-- `async.eachSeries` over the matched files: strictly sequential, aborting
on the first error. -/
def archiveFiles (gz : List Char → List Char) (dest_path : String) (uid : String) :
    List String → LoggerState → FS → LoggerState × FS × Option String
  | [], st, fs => (st, fs, none)
  | f :: rest, st, fs =>
    match archiveOneFile gz dest_path uid st fs f with
    | (st', fs', some e) => (st', fs', some e)
    | (st', fs', none) => archiveFiles gz dest_path uid rest st' fs'

/-- `archive` (logger.js lines 395-475).  `files` is the glob result,
`dargs` the `Tools.getDateArgs(epoch)` record; both are external
collaborators.  Lines 405-406 write every `dargs` entry into the persistent
`this.args` before any file is processed — also on the no-files error
path. -/
def archive (st : LoggerState) (fs : FS) (files : List String) (dest_path : String)
    (dargs : Args) (uid : String) (gz : List Char → List Char) :
    LoggerState × FS × Option String :=
  let st1 := { st with args := dargs.foldl (fun a kv => setKey a kv.1 kv.2) st.args }
  if files = [] then (st1, fs, some "No files found")
  else archiveFiles gz dest_path uid files st1 fs

/-! ## Concrete fixtures (used to evaluate the theorems on closed inputs) -/

/-- A plain logger instance with one column and no hooks. -/
def wLogger : LoggerState :=
  { path := "app.log", columns := ["msg"], args := [] }

/-- A buffer-enabled instance holding one pending line. -/
def wBufLogger : LoggerState :=
  { path := "app.log", columns := ["msg"], args := [], useBuffer := true, bufferLines := some [['a']], flushTimer := true, lastPath := "app.log" }

/-- The same buffered instance in synchronous mode. -/
def wSyncBufLogger : LoggerState :=
  { path := "app.log", columns := ["msg"], args := [("sync", JVal.vbool true)], useBuffer := true, bufferLines := some [['a']], flushTimer := true, lastPath := "app.log" }

/-- A filesystem holding one log file. -/
def wArchFS : FS := [("a.log", ['d'])]

/-! ## Lemmas about the argument-object operations -/

theorem lookupArg_setKey_self (a : Args) (k : String) (v : JVal) :
    lookupArg (setKey a k v) k = v := by
  induction a with
  | nil => simp [setKey, lookupArg]
  | cons kv rest ih =>
    obtain ⟨k', v'⟩ := kv
    by_cases h : k' = k <;> simp [setKey, lookupArg, h, ih]

theorem lookupArg_setKey_ne (a : Args) {k' k : String} (v : JVal) (h : k' ≠ k) :
    lookupArg (setKey a k' v) k = lookupArg a k := by
  induction a with
  | nil => simp [setKey, lookupArg, h]
  | cons kv rest ih =>
    obtain ⟨k0, v0⟩ := kv
    by_cases h0 : k0 = k'
    · subst h0
      simp [setKey, lookupArg, h]
    · by_cases h1 : k0 = k <;> simp [setKey, lookupArg, h0, h1, ih, Ne.symm h]

theorem lookupArg_removeKey_ne (a : Args) {k' k : String} (h : k' ≠ k) :
    lookupArg (removeKey a k') k = lookupArg a k := by
  induction a with
  | nil => simp [removeKey]
  | cons kv rest ih =>
    obtain ⟨k0, v0⟩ := kv
    by_cases h0 : k0 = k'
    · subst h0
      simp [removeKey, lookupArg, h]
    · by_cases h1 : k0 = k <;> simp [removeKey, lookupArg, h0, h1, ih, Ne.symm h]

theorem hasKey_removeKey_ne (a : Args) {k' k : String} (h : k' ≠ k) :
    hasKey (removeKey a k') k = hasKey a k := by
  induction a with
  | nil => simp [removeKey]
  | cons kv rest ih =>
    obtain ⟨k0, v0⟩ := kv
    by_cases h0 : k0 = k'
    · subst h0
      simp [removeKey, hasKey, h]
    · by_cases h1 : k0 = k <;> simp [removeKey, hasKey, h0, h1, ih, Ne.symm h]

theorem lookupArg_of_not_hasKey {a : Args} {k : String} (h : hasKey a k = false) :
    lookupArg a k = .vundef := by
  induction a with
  | nil => simp [lookupArg]
  | cons kv rest ih =>
    obtain ⟨k0, v0⟩ := kv
    simp only [hasKey, Bool.or_eq_false_iff, decide_eq_false_iff_not] at h
    simp [lookupArg, h.1, ih h.2]

theorem hasKey_append (a b : Args) (k : String) :
    hasKey (a ++ b) k = (hasKey a k || hasKey b k) := by
  induction a with
  | nil => simp [hasKey]
  | cons kv rest ih =>
    obtain ⟨k0, v0⟩ := kv
    by_cases h0 : k0 = k <;> simp [hasKey, h0, ih]

theorem lookupArg_append (a b : Args) (k : String) :
    lookupArg (a ++ b) k = if hasKey a k then lookupArg a k else lookupArg b k := by
  induction a with
  | nil => simp [hasKey, lookupArg]
  | cons kv rest ih =>
    obtain ⟨k0, v0⟩ := kv
    by_cases h0 : k0 = k <;> simp [hasKey, lookupArg, h0, ih]

theorem lookupArg_mergeDefaults (d : Args) (a : Args) (k : String) :
    lookupArg (mergeDefaults a d) k =
      if hasKey a k then lookupArg a k else lookupArg d k := by
  induction d generalizing a with
  | nil =>
    by_cases h : hasKey a k
    · simp [mergeDefaults, h]
    · simp [mergeDefaults, h, lookupArg, lookupArg_of_not_hasKey (by simpa using h)]
  | cons kv rest ih =>
    obtain ⟨k0, v0⟩ := kv
    simp only [mergeDefaults]
    by_cases ha : hasKey a k0
    · rw [if_pos ha, ih]
      by_cases hk : hasKey a k
      · simp [hk]
      · simp only [hk, if_false]
        by_cases h0 : k0 = k
        · subst h0
          simp [hk] at ha
        · simp [lookupArg, h0]
    · rw [if_neg ha, ih]
      rw [hasKey_append, lookupArg_append]
      by_cases hk : hasKey a k
      · simp [hk]
      · simp only [hk, Bool.false_or, if_false]
        by_cases h0 : k0 = k
        · subst h0
          simp [hasKey, lookupArg]
        · simp [hasKey, lookupArg, h0]

/-! ## Lemmas about cleansing and field counting -/

theorem mem_of_mem_removeBrk {c : Char} : ∀ {l : List Char}, c ∈ removeBrk l → c ∈ l := by
  intro l
  induction l using removeBrk.induct with
  | case1 rest ih =>
    intro h
    exact List.mem_cons_of_mem _ (List.mem_cons_of_mem _ (ih h))
  | case2 c' rest hcond ih =>
    intro h
    rw [removeBrk.eq_2 c' rest hcond] at h
    rcases List.mem_cons.mp h with h | h
    · exact h ▸ List.mem_cons_self _ _
    · exact List.mem_cons_of_mem _ (ih h)
  | case3 =>
    intro h
    exact h

theorem not_mem_cleanse_cr (s : List Char) : '\r' ∉ cleanse s := by
  intro h
  have h1 : '\r' ∈ s.map nlToSpace := mem_of_mem_removeBrk h
  obtain ⟨a, _, ha⟩ := List.mem_map.mp h1
  unfold nlToSpace at ha
  split at ha
  · exact absurd ha (by decide)
  · rename_i hcond
    exact hcond (Or.inl ha)

theorem not_mem_cleanse_lf (s : List Char) : '\n' ∉ cleanse s := by
  intro h
  have h1 : '\n' ∈ s.map nlToSpace := mem_of_mem_removeBrk h
  obtain ⟨a, _, ha⟩ := List.mem_map.mp h1
  unfold nlToSpace at ha
  split at ha
  · exact absurd ha (by decide)
  · rename_i hcond
    exact hcond (Or.inr ha)

theorem countBrk_nil : countBrk [] = 0 := rfl

theorem countBrk_cons (c : Char) (l : List Char) :
    countBrk (c :: l) = (if c = ']' ∧ l.head? = some '[' then 1 else 0) + countBrk l := rfl

theorem countBrk_append (a b : List Char) :
    countBrk (a ++ b) = countBrk a + countBrk b +
      (if a.getLast? = some ']' ∧ b.head? = some '[' then 1 else 0) := by
  induction a with
  | nil => simp [countBrk]
  | cons c rest ih =>
    cases rest with
    | nil =>
      cases b with
      | nil => simp [countBrk_cons, countBrk_nil]
      | cons b0 bt =>
        simp only [List.singleton_append, countBrk_cons, countBrk_nil, List.head?_nil,
          List.head?_cons, List.getLast?_singleton, Option.some.injEq]
        by_cases h1 : c = ']' <;> by_cases h2 : b0 = '[' <;> simp [h1, h2]
        omega
    | cons r0 rt =>
      have hlast : (c :: r0 :: rt).getLast? = (r0 :: rt).getLast? := List.getLast?_cons_cons
      have h1 : countBrk ((c :: r0 :: rt) ++ b) =
          (if c = ']' ∧ r0 = '[' then 1 else 0) + countBrk ((r0 :: rt) ++ b) := by
        simp only [List.cons_append, countBrk_cons, List.head?_cons, Option.some.injEq]
      have h2 : countBrk (c :: r0 :: rt) =
          (if c = ']' ∧ r0 = '[' then 1 else 0) + countBrk (r0 :: rt) := by
        simp only [countBrk_cons, List.head?_cons, Option.some.injEq]
      rw [h1, h2, ih, hlast]
      omega

theorem countBrk_joinBrk (cols : List (List Char)) (h : ∀ c ∈ cols, countBrk c = 0)
    (hne : cols ≠ []) : countBrk (joinBrk cols) = cols.length - 1 := by
  induction cols with
  | nil => exact absurd rfl hne
  | cons c rest ih =>
    cases rest with
    | nil =>
      simp [joinBrk, h c (List.mem_cons_self _ _)]
    | cons c2 rt =>
      have hc : countBrk c = 0 := h c (List.mem_cons_self _ _)
      have hrest : ∀ x ∈ c2 :: rt, countBrk x = 0 :=
        fun x hx => h x (List.mem_cons_of_mem _ hx)
      have ihr := ih hrest (by simp)
      have e1 : countBrk (']' :: '[' :: joinBrk (c2 :: rt)) =
          1 + countBrk (joinBrk (c2 :: rt)) := by
        rw [countBrk_cons, countBrk_cons]
        simp
      show countBrk (c ++ ']' :: '[' :: joinBrk (c2 :: rt)) = (c2 :: rt).length + 1 - 1
      rw [countBrk_append, e1, hc, ihr]
      have e2 : ((']' :: '[' :: joinBrk (c2 :: rt)).head? = some '[') = False := by
        simp
      simp only [e2, and_false, if_false]
      simp only [List.length_cons]
      omega

theorem countBrk_composeRow (cols : List (List Char)) (h : ∀ c ∈ cols, countBrk c = 0)
    (hne : cols ≠ []) : countBrk (composeRow cols) = cols.length - 1 := by
  unfold composeRow
  show countBrk ('[' :: (joinBrk cols ++ ']' :: eol)) = cols.length - 1
  have h1 : countBrk ('[' :: (joinBrk cols ++ ']' :: eol)) =
      countBrk (joinBrk cols ++ ']' :: eol) := by
    simp [countBrk]
  rw [h1, countBrk_append, countBrk_joinBrk cols h hne]
  simp [countBrk, eol]

theorem numFields_composeRow (cols : List (List Char)) (h : ∀ c ∈ cols, countBrk c = 0)
    (hne : cols ≠ []) : numFields (composeRow cols) = cols.length := by
  unfold numFields
  rw [countBrk_composeRow cols h hne]
  cases cols with
  | nil => exact absurd rfl hne
  | cons c rest => simp

/-! ## Lemmas about the filesystem model -/

theorem fsRead_fsAppend_self (fs : FS) (p : String) (d : List Char) :
    fsRead (fsAppend fs p d) p = fsRead fs p ++ d := by
  induction fs with
  | nil => simp [fsAppend, fsRead]
  | cons e rest ih =>
    obtain ⟨q, c⟩ := e
    by_cases h : q = p <;> simp [fsAppend, fsRead, h, ih]

theorem fsRead_fsAppend_ne (fs : FS) {p q : String} (d : List Char) (h : q ≠ p) :
    fsRead (fsAppend fs p d) q = fsRead fs q := by
  induction fs with
  | nil => simp [fsAppend, fsRead, Ne.symm h]
  | cons e rest ih =>
    obtain ⟨r, c⟩ := e
    by_cases h0 : r = p
    · subst h0
      simp [fsAppend, fsRead, Ne.symm h]
    · by_cases h1 : r = q <;> simp [fsAppend, fsRead, h0, h1, ih, h, Ne.symm h]

theorem fsRead_fsRemove_ne (fs : FS) {p q : String} (h : q ≠ p) :
    fsRead (fsRemove fs p) q = fsRead fs q := by
  induction fs with
  | nil => simp [fsRemove]
  | cons e rest ih =>
    obtain ⟨r, c⟩ := e
    by_cases h0 : r = p
    · subst h0
      simp [fsRemove, fsRead, Ne.symm h]
    · by_cases h1 : r = q <;> simp [fsRemove, fsRead, h0, h1, ih, h, Ne.symm h]

theorem hasPath_fsRemove_false (fs : FS) {p : String} (q : String)
    (h : hasPath fs p = false) : hasPath (fsRemove fs q) p = false := by
  induction fs with
  | nil => simp [fsRemove, hasPath]
  | cons e rest ih =>
    obtain ⟨r, c⟩ := e
    simp only [hasPath, Bool.or_eq_false_iff, decide_eq_false_iff_not] at h
    by_cases h0 : r = q <;> simp [fsRemove, hasPath, h0, h.1, ih h.2, h.2]

theorem fsRead_of_not_hasPath {fs : FS} {p : String} (h : hasPath fs p = false) :
    fsRead fs p = [] := by
  induction fs with
  | nil => simp [fsRead]
  | cons e rest ih =>
    obtain ⟨r, c⟩ := e
    simp only [hasPath, Bool.or_eq_false_iff, decide_eq_false_iff_not] at h
    simp [fsRead, h.1, ih h.2]

/-! ## Frame lemmas for the buffer operations -/

theorem flushBuffer_st_args (st : LoggerState) (fs : FS) (ok : Bool) :
    (flushBuffer st fs ok).st.args = st.args := by
  unfold flushBuffer
  split
  · rfl
  · split
    · rfl
    · split
      · rfl
      · split
        · split
          · rfl
          · rfl
        · rfl

theorem bufferAppendLine_st_args (st : LoggerState) (fs : FS) (line : List Char) (ok : Bool) :
    (bufferAppendLine st fs line ok).st.args = st.args := by
  unfold bufferAppendLine
  split
  · rfl
  · split
    · rw [flushBuffer_st_args]
    · rfl

/-! ## Projection lemmas for print -/

theorem printAppendStep_st_args (st3 : LoggerState) (fs : FS) (a3 : Args) (path : String)
    (line : List Char) (ok : Bool) :
    (printAppendStep st3 fs a3 path line ok).st.args = st3.args := by
  unfold printAppendStep
  split
  · rw [bufferAppendLine_st_args]
  · split
    · split <;> rfl
    · rfl

theorem printEchoStep_proj (out : FlushOut) (e : Option String) (a3 : Args)
    (cols : List (List Char)) (line : List Char) (ok : Bool) :
    (printEchoStep out e a3 cols line ok).st = out.st ∧
    (printEchoStep out e a3 cols line ok).merged = a3 ∧
    (printEchoStep out e a3 cols line ok).cols = cols ∧
    (printEchoStep out e a3 cols line ok).line = some line := by
  unfold printEchoStep
  refine ⟨?_, ?_, ?_, ?_⟩ <;> (repeat' split) <;> rfl

theorem printFinish_proj (st : LoggerState) (fs : FS) (st1 : LoggerState) (a3 : Args)
    (cols : List (List Char)) (ok : Bool) (o : Option (List Char)) :
    (printFinish st fs st1 a3 cols ok o).st.args = st1.args ∧
    (printFinish st fs st1 a3 cols ok o).merged = a3 ∧
    (printFinish st fs st1 a3 cols ok o).cols = cols ∧
    (printFinish st fs st1 a3 cols ok o).line = o := by
  cases o with
  | none => exact ⟨rfl, rfl, rfl, rfl⟩
  | some line =>
    refine ⟨?_, ?_, ?_, ?_⟩
    · rw [printFinish, (printEchoStep_proj _ _ _ _ _ _).1, printAppendStep_st_args]
    · rw [printFinish, (printEchoStep_proj _ _ _ _ _ _).2.1]
    · rw [printFinish, (printEchoStep_proj _ _ _ _ _ _).2.2.1]
    · rw [printFinish, (printEchoStep_proj _ _ _ _ _ _).2.2.2]

theorem print_st_args (st : LoggerState) (fs : FS) (in_args : Args) (nd : Int)
    (fd : Int → List Char) (ok : Bool) :
    (print st fs in_args nd fd ok).st.args = st.args := by
  simp only [print, (printFinish_proj _ _ _ _ _ _ _).1]
  split <;> rfl

theorem print_merged (st : LoggerState) (fs : FS) (in_args : Args) (nd : Int)
    (fd : Int → List Char) (ok : Bool) :
    (print st fs in_args nd fd ok).merged = mergedArgsOf st in_args nd fd := by
  simp only [print, (printFinish_proj _ _ _ _ _ _ _).2.1]

theorem print_cols (st : LoggerState) (fs : FS) (in_args : Args) (nd : Int)
    (fd : Int → List Char) (ok : Bool) :
    (print st fs in_args nd fd ok).cols =
      populate st.columns (mergedArgsOf st in_args nd fd) st.filter := by
  simp only [print, (printFinish_proj _ _ _ _ _ _ _).2.2.1]

theorem print_line_default (st : LoggerState) (fs : FS) (in_args : Args) (nd : Int)
    (fd : Int → List Char) (ok : Bool) (hser : st.serializer = none) :
    (print st fs in_args nd fd ok).line =
      some (composeRow (populate st.columns (mergedArgsOf st in_args nd fd) st.filter)) := by
  simp only [print, (printFinish_proj _ _ _ _ _ _ _).2.2.2, hser]

theorem populate_len (columns : List String) (args : Args)
    (filter : Option (JVal → Nat → List Char)) :
    (populate columns args filter).length = columns.length := by
  simp [populate]

theorem populate_default_mem (columns : List String) (args : Args) {c : List Char}
    (h : c ∈ populate columns args none) : ∃ v, c = cleanse v := by
  simp only [populate, List.mem_map] at h
  obtain ⟨p, _, hp⟩ := h
  exact ⟨_, hp.symm⟩

theorem lookup_mergedArgsOf (st : LoggerState) (in_args : Args) (nd : Int)
    (fd : Int → List Char) (k : String) (h1 : k ≠ "hires_epoch") (h2 : k ≠ "epoch")
    (h3 : k ≠ "date") (h4 : k ≠ "now") :
    lookupArg (mergedArgsOf st in_args nd fd) k =
      if hasKey in_args k then lookupArg in_args k else lookupArg st.args k := by
  unfold mergedArgsOf
  rw [lookupArg_setKey_ne _ _ (Ne.symm h3), lookupArg_setKey_ne _ _ (Ne.symm h2),
    lookupArg_setKey_ne _ _ (Ne.symm h1), lookupArg_mergeDefaults]
  split
  · rw [hasKey_removeKey_ne _ (Ne.symm h4), lookupArg_removeKey_ne _ (Ne.symm h4)]
  · rfl

/-! ## Claim theorems -/

/-- C3: for a buffer-enabled instance, `flushBuffer` is single-flight: with
an empty buffer or a flush already in progress it changes nothing; otherwise
it swaps the buffer for an empty one and appends the joined captured lines as
one payload in a single filesystem call — marking `flushInProgress` for the
duration (it stays set across an asynchronous flush, whose payload is the
returned pending append; in synchronous mode the append completes inside the
call and the flag ends clear) — and a line appended while a flush is in
flight stays in the buffer, because the flush it may trigger is a no-op. -/
theorem C3_flushBuffer_single_flight (st : LoggerState) (fs : FS) (ok : Bool)
    (ls : List (List Char)) (hub : st.useBuffer = true)
    (hbl : st.bufferLines = some ls) :
    ((ls = [] ∨ st.flushInProgress = true) → flushBuffer st fs ok = ⟨st, fs, none, none⟩) ∧
    (ls ≠ [] → st.flushInProgress = false → syncMode st = false →
      flushBuffer st fs ok =
        ⟨{ st with flushInProgress := true, bufferLines := some [] }, fs, none,
          some (joinAll ls)⟩) ∧
    (ls ≠ [] → st.flushInProgress = false → syncMode st = true → ok = true →
      flushBuffer st fs ok =
        ⟨{ st with flushInProgress := false, bufferLines := some [] },
          fsAppend fs st.lastPath (joinAll ls), none, none⟩) ∧
    (st.flushInProgress = true → ∀ line,
      bufferAppendLine st fs line ok =
        ⟨{ st with bufferLines := some (ls ++ [line]) }, fs, none, none⟩) ∧
    (∀ ok2, fsRead (flushComplete { st with flushInProgress := true, bufferLines := some [] }
        fs (joinAll ls) ok2).2 st.lastPath =
      if ok2 then fsRead fs st.lastPath ++ joinAll ls else fsRead fs st.lastPath) := by
  refine ⟨?_, ?_, ?_, ?_, ?_⟩
  · intro h
    rcases h with h | h
    · subst h
      simp [flushBuffer, hub, hbl]
    · simp [flushBuffer, hub, hbl, h]
  · intro h1 h2 h3
    simp [flushBuffer, hub, hbl, h1, h2, h3]
  · intro h1 h2 h3 h4
    simp [flushBuffer, hub, hbl, h1, h2, h3, h4]
  · intro h line
    unfold bufferAppendLine
    rw [hbl]
    simp only []
    split
    · simp [flushBuffer, hub, h]
    · rfl
  · intro ok2
    cases ok2 <;> simp [flushComplete, fsRead_fsAppend_self]

/-- C10: when a synchronous-mode flush's underlying append fails, the error
propagates to the caller (`err = some fsError`), the swapped-out payload is
lost (the buffer was already emptied and the filesystem is unchanged), and
`flushInProgress` remains set — after which every `flushBuffer` call on any
state with the flag set is a no-op; by contrast, completing an asynchronous
flush always clears the flag, whether or not the append succeeded. -/
theorem C10_flush_error_handling (st : LoggerState) (fs : FS)
    (ls : List (List Char)) (hub : st.useBuffer = true)
    (hbl : st.bufferLines = some ls) (hne : ls ≠ [])
    (hfp : st.flushInProgress = false) (hsync : syncMode st = true) :
    flushBuffer st fs false =
      ⟨{ st with flushInProgress := true, bufferLines := some [] }, fs,
        some .fsError, none⟩ ∧
    (∀ (t : LoggerState) (fs' : FS) (ok' : Bool) (ls' : List (List Char)),
      t.flushInProgress = true → t.bufferLines = some ls' →
      flushBuffer t fs' ok' = ⟨t, fs', none, none⟩) ∧
    (∀ (payload : List Char) (ok : Bool),
      (flushComplete st fs payload ok).1.flushInProgress = false) := by
  refine ⟨?_, ?_, ?_⟩
  · simp [flushBuffer, hub, hbl, hne, hfp, hsync]
  · intro t fs' ok' ls' hfp' hbl'
    by_cases hb : t.useBuffer
    · simp [flushBuffer, hb, hbl', hfp']
    · simp [flushBuffer, hb]
  · intro payload ok
    rfl

/-- C2: shutting down a buffer-enabled instance with pending lines
synchronously appends the joined pending lines to the last resolved output
path, empties the buffer, stops the recurring flush timer, disables
buffering, and forces synchronous mode (`args.sync = true`); a second
`shutdown` on the result — like a `shutdown` on any non-buffered instance —
is a no-op. -/
theorem C2_shutdown_drains_and_disables (st : LoggerState) (fs : FS)
    (ls : List (List Char)) (hub : st.useBuffer = true)
    (hbl : st.bufferLines = some ls) (hne : ls ≠ []) :
    ∃ st' fs', shutdown st fs = .ok (st', fs') ∧
      fsRead fs' st.lastPath = fsRead fs st.lastPath ++ joinAll ls ∧
      st'.bufferLines = some [] ∧
      st'.flushTimer = false ∧
      st'.useBuffer = false ∧
      lookupArg st'.args "sync" = .vbool true ∧
      shutdown st' fs' = .ok (st', fs') ∧
      (∀ (t : LoggerState) (g : FS), t.useBuffer = false → shutdown t g = .ok (t, g)) := by
  have hnoop : ∀ (t : LoggerState) (g : FS), t.useBuffer = false → shutdown t g = .ok (t, g) := by
    intro t g h
    simp [shutdown, h]
  by_cases hft : st.flushTimer
  · refine ⟨{ st with flushTimer := false, bufferLines := some [], useBuffer := false, args := setKey st.args "sync" (.vbool true) }, fsAppend fs st.lastPath (joinAll ls), ?_, ?_, rfl, rfl, rfl, ?_, ?_, hnoop⟩
    · simp [shutdown, hub, hft, hbl, hne]
    · exact fsRead_fsAppend_self fs st.lastPath (joinAll ls)
    · exact lookupArg_setKey_self _ _ _
    · exact hnoop _ _ rfl
  · refine ⟨{ st with bufferLines := some [], useBuffer := false, args := setKey st.args "sync" (.vbool true) }, fsAppend fs st.lastPath (joinAll ls), ?_, ?_, rfl, ?_, rfl, ?_, ?_, hnoop⟩
    · simp [shutdown, hub, hft, hbl, hne]
    · exact fsRead_fsAppend_self fs st.lastPath (joinAll ls)
    · simpa using eq_false_of_ne_true (by simpa using hft)
    · exact lookupArg_setKey_self _ _ _
    · exact hnoop _ _ rfl

/-- C5 counterexample: in the cross-device fallback, when both the read
stream and the write stream of the copy stage emit errors, the completion
callback is invoked twice — refuting "exactly one completion notification
per invocation". -/
theorem C5_counterexample :
    (rotateCalls ⟨.exdev, true, true, true, true, true⟩).length ≠ 1 := by
  decide

/-- C5 (amended): every rotate invocation delivers at least one completion
notification, and exactly one — a single success or the first failure —
unless both copy streams error, in which case the callback runs once per
erroring stream. -/
theorem C5_one_notification (env : RotateEnv)
    (h : ¬(env.inpErr = true ∧ env.outpErr = true)) :
    (rotateCalls env).length = 1 := by
  obtain ⟨r1, sr, ie, oe, r2, ul⟩ := env
  simp only [not_and] at h
  cases r1 <;> cases sr <;> cases ie <;> cases oe <;> cases r2 <;> cases ul <;>
    simp_all [rotateCalls]

theorem C5_one_notification_witness :
    (¬((false : Bool) = true ∧ (false : Bool) = true)) ∧
    (rotateCalls ⟨.exdev, true, false, false, true, true⟩).length = 1 :=
  ⟨by decide, C5_one_notification ⟨.exdev, true, false, false, true, true⟩ (by decide)⟩

/-- C7: with a numeric debug-level threshold `T`, `debug(level, …)` builds a
record and produces output (delegates to `print`) iff `level ≤ T` — when
`level > T` nothing happens at all — and the side-effect-free query
`shouldLog(level)` returns true iff `T ≥ level`. -/
theorem C7_debug_threshold (st : LoggerState) (fs : FS) (level T : Int)
    (msg data : JVal) (nowDefault : Int) (formatDate : Int → List Char) (ok : Bool)
    (h : lookupArg st.args "debugLevel" = .vnum T) :
    ((debugCall st fs level msg data nowDefault formatDate ok).isSome ↔ level ≤ T) ∧
    (shouldLog st level = true ↔ T ≥ level) := by
  constructor
  · simp [debugCall, h, jsLE]
  · simp [shouldLog, get, h, jsGE]

/-- C1 counterexample: with one configured column and no hooks, printing the
value `]][[` produces the line `[][]` plus EOL — two bracket-delimited
fields, not one.  The single-pass `][` removal deletes the middle pair and
the remaining `]`, `[` become adjacent, so a value can still introduce an
extra field boundary. -/
theorem C1_counterexample :
    ((print { path := "app.log", columns := ["msg"], args := [] } []
        [("msg", JVal.vstr "]][[".data)] 0 (fun _ => []) true).line.map numFields ≠
      some ["msg"].length) := by
  decide

/-- C1 (amended): with no custom filter or serializer, the line printed is
exactly the cleansed column values in configured order, bracket-wrapped and
EOL-terminated, one per column; cleansing replaces every carriage return and
line feed with a space; and whenever no cleansed value retains a `][`
(the single-pass removal can leave one, as in the counterexample), the line
has exactly `|C|` bracket-delimited fields. -/
theorem C1_row_structure (st : LoggerState) (fs : FS) (in_args : Args) (nd : Int)
    (fd : Int → List Char) (ok : Bool) (hf : st.filter = none) (hs : st.serializer = none) :
    (print st fs in_args nd fd ok).line =
      some (composeRow (print st fs in_args nd fd ok).cols) ∧
    (print st fs in_args nd fd ok).cols.length = st.columns.length ∧
    (∀ c ∈ (print st fs in_args nd fd ok).cols, '\r' ∉ c ∧ '\n' ∉ c) ∧
    (st.columns ≠ [] → (∀ c ∈ (print st fs in_args nd fd ok).cols, countBrk c = 0) →
      numFields (composeRow (print st fs in_args nd fd ok).cols) = st.columns.length) := by
  rw [print_cols, print_line_default st fs in_args nd fd ok hs]
  refine ⟨rfl, populate_len _ _ _, ?_, ?_⟩
  · intro c hc
    rw [hf] at hc
    obtain ⟨v, hv⟩ := populate_default_mem _ _ hc
    subst hv
    exact ⟨not_mem_cleanse_cr v, not_mem_cleanse_lf v⟩
  · intro hne hz
    have hlen : (populate st.columns (mergedArgsOf st in_args nd fd) st.filter).length =
        st.columns.length := populate_len _ _ _
    have hcne : populate st.columns (mergedArgsOf st in_args nd fd) st.filter ≠ [] := by
      intro h0
      rw [h0] at hlen
      exact hne (List.length_eq_zero.mp hlen.symm)
    rw [numFields_composeRow _ hz hcne, hlen]

theorem C1_row_structure_witness :
    ({ path := "app.log", columns := ["msg"], args := [] } : LoggerState).filter = none ∧
    ({ path := "app.log", columns := ["msg"], args := [] } : LoggerState).serializer = none ∧
    ((print { path := "app.log", columns := ["msg"], args := [] } [] [("msg", JVal.vstr ['m'])] 0 (fun _ => []) true).line =
      some (composeRow (print { path := "app.log", columns := ["msg"], args := [] } [] [("msg", JVal.vstr ['m'])] 0 (fun _ => []) true).cols) ∧
    (print { path := "app.log", columns := ["msg"], args := [] } [] [("msg", JVal.vstr ['m'])] 0 (fun _ => []) true).cols.length =
      ({ path := "app.log", columns := ["msg"], args := [] } : LoggerState).columns.length ∧
    (∀ c ∈ (print { path := "app.log", columns := ["msg"], args := [] } [] [("msg", JVal.vstr ['m'])] 0 (fun _ => []) true).cols, '\r' ∉ c ∧ '\n' ∉ c) ∧
    (({ path := "app.log", columns := ["msg"], args := [] } : LoggerState).columns ≠ [] →
      (∀ c ∈ (print { path := "app.log", columns := ["msg"], args := [] } [] [("msg", JVal.vstr ['m'])] 0 (fun _ => []) true).cols, countBrk c = 0) →
      numFields (composeRow (print { path := "app.log", columns := ["msg"], args := [] } [] [("msg", JVal.vstr ['m'])] 0 (fun _ => []) true).cols) =
        ({ path := "app.log", columns := ["msg"], args := [] } : LoggerState).columns.length)) :=
  ⟨rfl, rfl, C1_row_structure { path := "app.log", columns := ["msg"], args := [] } []
    [("msg", JVal.vstr ['m'])] 0 (fun _ => []) true rfl rfl⟩

/-- C6: a `print` call leaves the instance's persistent defaults untouched
(`st.args` is unchanged), and the record it actually logs is the copy-and-
merge of the caller's object over the defaults: outside the automatic keys
(`hires_epoch`, `epoch`, `date`) and the consumed `now` key, every key reads
from the caller's object when present there and from the untouched defaults
otherwise.  The caller's object itself is never written — the source copies
it before any mutation, so the merge result is a fresh record. -/
theorem C6_print_frame (st : LoggerState) (fs : FS) (in_args : Args) (nd : Int)
    (fd : Int → List Char) (ok : Bool) :
    (print st fs in_args nd fd ok).st.args = st.args ∧
    (∀ k, k ≠ "hires_epoch" → k ≠ "epoch" → k ≠ "date" → k ≠ "now" →
      lookupArg (print st fs in_args nd fd ok).merged k =
        if hasKey in_args k then lookupArg in_args k else lookupArg st.args k) := by
  refine ⟨print_st_args _ _ _ _ _ _, ?_⟩
  intro k h1 h2 h3 h4
  rw [print_merged, lookup_mergedArgsOf st in_args nd fd k h1 h2 h3 h4]

theorem C6_print_frame_witness :
    (("user" : String) ≠ "hires_epoch" ∧ ("user" : String) ≠ "epoch" ∧
      ("user" : String) ≠ "date" ∧ ("user" : String) ≠ "now") ∧
    (print { path := "app.log", columns := ["msg"], args := [("user", JVal.vstr ['u'])] } [] [("msg", JVal.vstr ['m'])] 0 (fun _ => []) true).st.args =
      ({ path := "app.log", columns := ["msg"], args := [("user", JVal.vstr ['u'])] } : LoggerState).args ∧
    lookupArg (print { path := "app.log", columns := ["msg"], args := [("user", JVal.vstr ['u'])] } [] [("msg", JVal.vstr ['m'])] 0 (fun _ => []) true).merged "user" =
      if hasKey [("msg", JVal.vstr ['m'])] "user" then lookupArg [("msg", JVal.vstr ['m'])] "user"
      else lookupArg ([("user", JVal.vstr ['u'])] : Args) "user" :=
  ⟨⟨by decide, by decide, by decide, by decide⟩,
    (C6_print_frame { path := "app.log", columns := ["msg"], args := [("user", JVal.vstr ['u'])] } [] [("msg", JVal.vstr ['m'])] 0 (fun _ => []) true).1,
    (C6_print_frame { path := "app.log", columns := ["msg"], args := [("user", JVal.vstr ['u'])] } [] [("msg", JVal.vstr ['m'])] 0 (fun _ => []) true).2
      "user" (by decide) (by decide) (by decide) (by decide)⟩

/-- C4 (code bug): cloning an instance constructed with `useBuffer: true`
yields a clone whose `useBuffer` field is copied back to true by the
`internalArgs` loop of `clone` — but `enableBuffer` is never invoked on the
clone, so its `bufferLines` is still undefined and it has no flush timer;
the first `print` on the clone then throws a `TypeError` pushing onto the
undefined buffer, instead of behaving like a freshly enabled buffered
instance. -/
theorem C4_clone_buffered_print_throws :
    (construct "app.log" ["msg"] [("useBuffer", JVal.vbool true)] ['h'] 1).useBuffer = true ∧
    (construct "app.log" ["msg"] [("useBuffer", JVal.vbool true)] ['h'] 1).bufferLines = some [] ∧
    (cloneInst (construct "app.log" ["msg"] [("useBuffer", JVal.vbool true)] ['h'] 1) ['h'] 1).useBuffer = true ∧
    (cloneInst (construct "app.log" ["msg"] [("useBuffer", JVal.vbool true)] ['h'] 1) ['h'] 1).bufferLines = none ∧
    (cloneInst (construct "app.log" ["msg"] [("useBuffer", JVal.vbool true)] ['h'] 1) ['h'] 1).flushTimer = false ∧
    (print (cloneInst (construct "app.log" ["msg"] [("useBuffer", JVal.vbool true)] ['h'] 1) ['h'] 1)
        [] [("msg", JVal.vstr ['h', 'i'])] 0 (fun _ => []) true).err = some JsErr.typeError := by
  decide

theorem C7_debug_threshold_witness :
    lookupArg ([("debugLevel", JVal.vnum 2)] : Args) "debugLevel" = JVal.vnum 2 ∧
    (((debugCall { path := "app.log", columns := ["msg"], args := [("debugLevel", JVal.vnum 2)] } [] 1 (.vstr ['x']) .vundef 0 (fun _ => []) true).isSome ↔ (1 : Int) ≤ 2) ∧
      (shouldLog { path := "app.log", columns := ["msg"], args := [("debugLevel", JVal.vnum 2)] } 1 = true ↔ (2 : Int) ≥ 1)) :=
  ⟨rfl, C7_debug_threshold { path := "app.log", columns := ["msg"], args := [("debugLevel", JVal.vnum 2)] } [] 1 2 (.vstr ['x']) .vundef 0 (fun _ => []) true rfl⟩

/-! ## Helper lemmas for the archive claims -/

theorem archiveOneFile_st (gz : List Char → List Char) (dest_path uid : String)
    (st : LoggerState) (fs : FS) (f : String) :
    (archiveOneFile gz dest_path uid st fs f).1 =
      { st with args := setKey st.args "filename" (.vstr (getBaseNoExt f)) } := by
  unfold archiveOneFile
  cases h : fsRename fs f (tmpName f uid) <;> simp [h]

theorem lookupArg_foldl_setKey_not_mem (d : Args) (a : Args) (k : String)
    (h : k ∉ d.map Prod.fst) :
    lookupArg (d.foldl (fun x kv => setKey x kv.1 kv.2) a) k = lookupArg a k := by
  induction d generalizing a with
  | nil => rfl
  | cons kv rest ih =>
    simp only [List.map_cons, List.mem_cons, not_or] at h
    rw [List.foldl_cons, ih _ (by simp [h.2]), lookupArg_setKey_ne _ _ (Ne.symm h.1)]

theorem lookupArg_foldl_setKey_mem (d : Args) (a : Args) (k : String) (v : JVal)
    (hnd : (d.map Prod.fst).Nodup) (hm : (k, v) ∈ d) :
    lookupArg (d.foldl (fun x kv => setKey x kv.1 kv.2) a) k = v := by
  induction d generalizing a with
  | nil => cases hm
  | cons kv rest ih =>
    rw [List.foldl_cons]
    rcases List.mem_cons.mp hm with h | h
    · rw [← h]
      rw [← h] at hnd
      simp only [List.map_cons, List.nodup_cons] at hnd
      rw [lookupArg_foldl_setKey_not_mem rest _ k hnd.1, lookupArg_setKey_self]
    · simp only [List.map_cons, List.nodup_cons] at hnd
      exact ih _ hnd.2 h

theorem archiveFiles_args (gz : List Char → List Char) (dest_path uid : String)
    (k : String) (hk : k ≠ "filename") :
    ∀ (files : List String) (st : LoggerState) (fs : FS),
      lookupArg (archiveFiles gz dest_path uid files st fs).1.args k = lookupArg st.args k := by
  intro files
  induction files with
  | nil => intro st fs; rfl
  | cons f rest ih =>
    intro st fs
    unfold archiveFiles
    rcases h : archiveOneFile gz dest_path uid st fs f with ⟨st', fs', e⟩
    have h1 : (archiveOneFile gz dest_path uid st fs f).1 = st' := by rw [h]
    have hst' : st'.args = setKey st.args "filename" (JVal.vstr (getBaseNoExt f)) := by
      rw [← h1, archiveOneFile_st]
    cases e with
    | none =>
      dsimp only
      rw [ih st' fs', hst', lookupArg_setKey_ne _ _ (Ne.symm hk)]
    | some err =>
      dsimp only
      rw [hst', lookupArg_setKey_ne _ _ (Ne.symm hk)]

theorem archiveFiles_filename (gz : List Char → List Char) (dest_path uid : String) :
    ∀ (files : List String) (st : LoggerState) (fs : FS), files ≠ [] →
      ∃ f ∈ files, lookupArg (archiveFiles gz dest_path uid files st fs).1.args "filename" =
        .vstr (getBaseNoExt f) := by
  intro files
  induction files with
  | nil => intro st fs h; exact absurd rfl h
  | cons f rest ih =>
    intro st fs _
    unfold archiveFiles
    rcases h : archiveOneFile gz dest_path uid st fs f with ⟨st', fs', e⟩
    have h1 : (archiveOneFile gz dest_path uid st fs f).1 = st' := by rw [h]
    have hst' : st'.args = setKey st.args "filename" (JVal.vstr (getBaseNoExt f)) := by
      rw [← h1, archiveOneFile_st]
    cases e with
    | none =>
      cases rest with
      | nil =>
        refine ⟨f, by simp, ?_⟩
        dsimp only [archiveFiles]
        rw [hst', lookupArg_setKey_self]
      | cons r rt =>
        obtain ⟨g, hg, heq⟩ := ih st' fs' (by simp)
        refine ⟨g, List.mem_cons_of_mem _ hg, ?_⟩
        dsimp only
        exact heq
    | some err =>
      refine ⟨f, by simp, ?_⟩
      dsimp only
      rw [hst', lookupArg_setKey_self]

/-- C8: processing one file, archive appends to the expanded destination —
never truncates, so prior destination contents (from earlier archive runs
included) are preserved in front of the new payload — and the payload is the
gzip stream of the source contents exactly when the expanded destination
path ends in `.gz` (case-insensitively), the verbatim contents otherwise.
The hypotheses say the source file exists, the fresh temp name does not, and
the destination collides with neither. -/
theorem C8_archive_appends (gz : List Char → List Char) (dest_path uid : String)
    (st : LoggerState) (fs : FS) (src_file : String)
    (hsrc : hasPath fs src_file = true)
    (htmp : hasPath fs (tmpName src_file uid) = false)
    (hd1 : archiveDest st dest_path src_file ≠ src_file)
    (hd2 : archiveDest st dest_path src_file ≠ tmpName src_file uid) :
    ∃ st' fs', archiveOneFile gz dest_path uid st fs src_file = (st', fs', none) ∧
      fsRead fs' (archiveDest st dest_path src_file) =
        fsRead fs (archiveDest st dest_path src_file) ++
          (if endsGz (archiveDest st dest_path src_file) then gz (fsRead fs src_file)
           else fsRead fs src_file) := by
  have hren : fsRename fs src_file (tmpName src_file uid) =
      some (fsAppend (fsRemove (fsRemove fs (tmpName src_file uid)) src_file)
        (tmpName src_file uid) (fsRead fs src_file)) := by
    simp [fsRename, hsrc]
  have hXtmp : hasPath (fsRemove (fsRemove fs (tmpName src_file uid)) src_file)
      (tmpName src_file uid) = false :=
    hasPath_fsRemove_false _ _ (hasPath_fsRemove_false _ _ htmp)
  have hcontent : fsRead (fsAppend (fsRemove (fsRemove fs (tmpName src_file uid)) src_file)
      (tmpName src_file uid) (fsRead fs src_file)) (tmpName src_file uid) = fsRead fs src_file := by
    rw [fsRead_fsAppend_self, fsRead_of_not_hasPath hXtmp]
    simp
  simp only [archiveOneFile, hren]
  refine ⟨_, _, rfl, ?_⟩
  rw [hcontent]
  rw [fsRead_fsRemove_ne _ hd2, fsRead_fsAppend_self, fsRead_fsAppend_ne _ _ hd2,
    fsRead_fsRemove_ne _ hd1, fsRead_fsRemove_ne _ hd2]

theorem C8_archive_appends_witness :
    hasPath wArchFS "a.log" = true ∧
    hasPath wArchFS (tmpName "a.log" "u") = false ∧
    archiveDest wLogger "out.gz" "a.log" ≠ "a.log" ∧
    archiveDest wLogger "out.gz" "a.log" ≠ tmpName "a.log" "u" ∧
    (∃ st' fs', archiveOneFile (fun l => 'g' :: l) "out.gz" "u" wLogger wArchFS "a.log" =
        (st', fs', none) ∧
      fsRead fs' (archiveDest wLogger "out.gz" "a.log") =
        fsRead wArchFS (archiveDest wLogger "out.gz" "a.log") ++
          (if endsGz (archiveDest wLogger "out.gz" "a.log")
           then (fun l => 'g' :: l) (fsRead wArchFS "a.log")
           else fsRead wArchFS "a.log")) :=
  ⟨by decide, by decide, by decide, by decide,
    C8_archive_appends (fun l => 'g' :: l) "out.gz" "u" wLogger wArchFS "a.log"
      (by decide) (by decide) (by decide) (by decide)⟩

/-- C9: calling archive writes every timestamp-derived key of
`Tools.getDateArgs` into the instance's persistent defaults before any file
is processed, and during processing writes each matched file's
basename-without-extension into the persistent `filename` key; after archive
returns, the date keys read back their values, `filename` reads the basename
of one of the matched files (the last one processed), and any subsequent
`print` whose caller does not override such a key sees its value in the
merged record. -/
theorem C9_archive_writes_defaults (st : LoggerState) (fs : FS) (files : List String)
    (dest_path : String) (dargs : Args) (uid : String) (gz : List Char → List Char)
    (in_args : Args) (nd : Int) (fd : Int → List Char) (ok : Bool)
    (hnd : (dargs.map Prod.fst).Nodup) (hfn : "filename" ∉ dargs.map Prod.fst)
    (hne : files ≠ []) :
    (∀ k v, (k, v) ∈ dargs →
      lookupArg (archive st fs files dest_path dargs uid gz).1.args k = v) ∧
    (∃ f ∈ files,
      lookupArg (archive st fs files dest_path dargs uid gz).1.args "filename" =
        .vstr (getBaseNoExt f)) ∧
    (∀ k v, (k, v) ∈ dargs → k ≠ "hires_epoch" → k ≠ "epoch" → k ≠ "date" → k ≠ "now" →
      hasKey in_args k = false →
      lookupArg (print (archive st fs files dest_path dargs uid gz).1
        (archive st fs files dest_path dargs uid gz).2.1 in_args nd fd ok).merged k = v) := by
  have harch : archive st fs files dest_path dargs uid gz =
      archiveFiles gz dest_path uid files
        { st with args := dargs.foldl (fun a kv => setKey a kv.1 kv.2) st.args } fs := by
    simp [archive, hne]
  have hmain : ∀ k v, (k, v) ∈ dargs →
      lookupArg (archive st fs files dest_path dargs uid gz).1.args k = v := by
    intro k v hm
    have hk : k ≠ "filename" := by
      intro hkk
      exact hfn (hkk ▸ List.mem_map.mpr ⟨(k, v), hm, rfl⟩)
    rw [harch, archiveFiles_args gz dest_path uid k hk]
    exact lookupArg_foldl_setKey_mem dargs st.args k v hnd hm
  refine ⟨hmain, ?_, ?_⟩
  · rw [harch]
    exact archiveFiles_filename gz dest_path uid files _ fs hne
  · intro k v hm h1 h2 h3 h4 h5
    rw [print_merged, lookup_mergedArgsOf _ _ _ _ k h1 h2 h3 h4, h5]
    simp only [Bool.false_eq_true, if_false]
    exact hmain k v hm

theorem C9_archive_writes_defaults_witness :
    ((([("yyyy", JVal.vstr ['2'])] : Args).map Prod.fst).Nodup ∧
      "filename" ∉ (([("yyyy", JVal.vstr ['2'])] : Args).map Prod.fst) ∧
      (["a.log"] : List String) ≠ []) ∧
    ((∀ k v, (k, v) ∈ ([("yyyy", JVal.vstr ['2'])] : Args) →
      lookupArg (archive wLogger wArchFS ["a.log"] "out.gz" [("yyyy", JVal.vstr ['2'])] "u" (fun l => l)).1.args k = v) ∧
    (∃ f ∈ (["a.log"] : List String),
      lookupArg (archive wLogger wArchFS ["a.log"] "out.gz" [("yyyy", JVal.vstr ['2'])] "u" (fun l => l)).1.args "filename" =
        .vstr (getBaseNoExt f)) ∧
    (∀ k v, (k, v) ∈ ([("yyyy", JVal.vstr ['2'])] : Args) → k ≠ "hires_epoch" → k ≠ "epoch" → k ≠ "date" → k ≠ "now" →
      hasKey ([] : Args) k = false →
      lookupArg (print (archive wLogger wArchFS ["a.log"] "out.gz" [("yyyy", JVal.vstr ['2'])] "u" (fun l => l)).1
        (archive wLogger wArchFS ["a.log"] "out.gz" [("yyyy", JVal.vstr ['2'])] "u" (fun l => l)).2.1 [] 0 (fun _ => []) true).merged k = v)) :=
  ⟨⟨by decide, by decide, by decide⟩,
    C9_archive_writes_defaults wLogger wArchFS ["a.log"] "out.gz" [("yyyy", JVal.vstr ['2'])]
      "u" (fun l => l) [] 0 (fun _ => []) true (by decide) (by decide) (by decide)⟩

/-! ## Witnesses for the buffer-claim theorems -/

theorem C2_shutdown_drains_and_disables_witness :
    wBufLogger.useBuffer = true ∧ wBufLogger.bufferLines = some [['a']] ∧
    ([['a']] : List (List Char)) ≠ [] ∧
    (∃ st' fs', shutdown wBufLogger [] = .ok (st', fs') ∧
      fsRead fs' wBufLogger.lastPath = fsRead [] wBufLogger.lastPath ++ joinAll [['a']] ∧
      st'.bufferLines = some [] ∧
      st'.flushTimer = false ∧
      st'.useBuffer = false ∧
      lookupArg st'.args "sync" = .vbool true ∧
      shutdown st' fs' = .ok (st', fs') ∧
      (∀ (t : LoggerState) (g : FS), t.useBuffer = false → shutdown t g = .ok (t, g))) :=
  ⟨rfl, rfl, by decide, C2_shutdown_drains_and_disables wBufLogger [] [['a']] rfl rfl (by decide)⟩

theorem C3_flushBuffer_single_flight_witness :
    wBufLogger.useBuffer = true ∧ wBufLogger.bufferLines = some [['a']] ∧
    (((([['a']] : List (List Char)) = [] ∨ wBufLogger.flushInProgress = true) →
      flushBuffer wBufLogger [] true = ⟨wBufLogger, [], none, none⟩) ∧
    (([['a']] : List (List Char)) ≠ [] → wBufLogger.flushInProgress = false →
      syncMode wBufLogger = false →
      flushBuffer wBufLogger [] true =
        ⟨{ wBufLogger with flushInProgress := true, bufferLines := some [] }, [], none,
          some (joinAll [['a']])⟩) ∧
    (([['a']] : List (List Char)) ≠ [] → wBufLogger.flushInProgress = false →
      syncMode wBufLogger = true → true = true →
      flushBuffer wBufLogger [] true =
        ⟨{ wBufLogger with flushInProgress := false, bufferLines := some [] },
          fsAppend [] wBufLogger.lastPath (joinAll [['a']]), none, none⟩) ∧
    (wBufLogger.flushInProgress = true → ∀ line,
      bufferAppendLine wBufLogger [] line true =
        ⟨{ wBufLogger with bufferLines := some ([['a']] ++ [line]) }, [], none, none⟩) ∧
    (∀ ok2, fsRead (flushComplete { wBufLogger with flushInProgress := true, bufferLines := some [] }
        [] (joinAll [['a']]) ok2).2 wBufLogger.lastPath =
      if ok2 then fsRead [] wBufLogger.lastPath ++ joinAll [['a']]
      else fsRead [] wBufLogger.lastPath)) :=
  ⟨rfl, rfl, C3_flushBuffer_single_flight wBufLogger [] true [['a']] rfl rfl⟩

theorem C10_flush_error_handling_witness :
    wSyncBufLogger.useBuffer = true ∧ wSyncBufLogger.bufferLines = some [['a']] ∧
    ([['a']] : List (List Char)) ≠ [] ∧ wSyncBufLogger.flushInProgress = false ∧
    syncMode wSyncBufLogger = true ∧
    (flushBuffer wSyncBufLogger [] false =
      ⟨{ wSyncBufLogger with flushInProgress := true, bufferLines := some [] }, [],
        some .fsError, none⟩ ∧
    (∀ (t : LoggerState) (fs' : FS) (ok' : Bool) (ls' : List (List Char)),
      t.flushInProgress = true → t.bufferLines = some ls' →
      flushBuffer t fs' ok' = ⟨t, fs', none, none⟩) ∧
    (∀ (payload : List Char) (ok : Bool),
      (flushComplete wSyncBufLogger [] payload ok).1.flushInProgress = false)) :=
  ⟨rfl, rfl, by decide, rfl, by decide,
    C10_flush_error_handling wSyncBufLogger [] [['a']] rfl rfl (by decide) rfl (by decide)⟩

end PixlLogger
